import Mathlib

/-!
Verification development for the AR-drawing repository's offline scripts.

The repository contains two scripts whose logic is modelled here:

* `convert_model_final.py` — `convert_model`: repackages a Keras model into
  the TensorFlow.js Layers format (topology JSON cleanup, weights manifest,
  raw binary weight shards).
* `process_dataset.py` — `extract_landmarks` and `process_haGRID_dataset`:
  extracts MediaPipe hand landmarks from images and collects a capped number
  of samples per gesture class.

JSON dictionaries are embedded as association lists of string keys (Python
dicts preserve insertion order; `d[k] = v` replaces in place, `del d[k]`
removes the key).  Machine floats are carried either abstractly (landmark
coordinates, which the scripts never compute with) or, for the weight
serializer, as their 32-bit patterns encoded as natural numbers below 2^32,
so that byte-level serialization is exact.
-/

/-- A JSON value, as produced by `json.loads` on Keras `model.to_json()`
output.  Numbers other than integers never matter to the modelled code
paths, so a single integer constructor suffices. -/
inductive JVal where
  | jnull
  | jstr (s : String)
  | jint (n : Int)
  | jarr (xs : List JVal)
  | jobj (kvs : List (String × JVal))

/-- Python `dict` lookup (`d[k]` / `k in d` / `d.get(k)`): first binding of
the key in the association list; keys of a Python dict are unique, so the
first binding is the only one. -/
def lookupKey (kvs : List (String × JVal)) (k : String) : Option JVal :=
  match kvs with
  | [] => none
  | (k1, v) :: rest => if k1 = k then some v else lookupKey rest k

/-- Python `d[k] = v`: replace the binding in place if the key is present,
otherwise append a new binding at the end (insertion order). -/
def setKey (kvs : List (String × JVal)) (k : String) (v : JVal) :
    List (String × JVal) :=
  match kvs with
  | [] => [(k, v)]
  | (k1, v1) :: rest => if k1 = k then (k, v) :: rest else (k1, v1) :: setKey rest k v

/-- Python `del d[k]`: remove the binding of `k` (a no-op here when the key
is absent; the modelled code only deletes keys it has just looked up). -/
def eraseKey (kvs : List (String × JVal)) (k : String) : List (String × JVal) :=
  kvs.filter (fun p => p.1 ≠ k)

/-- The test `layer.get("class_name") == "InputLayer"` of
convert_model_final.py line 45. -/
def isInputLayerTag : Option JVal → Bool
  | some (JVal.jstr s) => s = "InputLayer"
  | _ => false

/-- Lines 44-53 of convert_model_final.py, for one element of
`config["layers"]`: convert an InputLayer's `batch_shape` to `inputShape`.
`if batch_shape and len(batch_shape) > 1` is, for a JSON array, equivalent
to `len(batch_shape) > 1`; a JSON `null` batch_shape is falsy, so only the
`del` runs.  In the Keras serialization schema `batch_shape` is always an
array or null; other JSON types (on which Python's `len` could raise) are
outside the modelled input domain and left unchanged, as is a layer whose
`config` key is missing or not an object (`layer.get("config", {})` would
then mutate a fresh dict whose changes are discarded). -/
def fixInputLayer (layer : JVal) : JVal :=
  match layer with
  | JVal.jobj kvs =>
    if isInputLayerTag (lookupKey kvs "class_name") then
      match lookupKey kvs "config" with
      | some (JVal.jobj cfg) =>
        match lookupKey cfg "batch_shape" with
        | some (JVal.jarr bs) =>
          let cfg1 := if bs.length > 1 then
              setKey cfg "inputShape" (JVal.jarr (List.drop 1 bs))
            else cfg
          JVal.jobj (setKey kvs "config" (JVal.jobj (eraseKey cfg1 "batch_shape")))
        | some JVal.jnull =>
          JVal.jobj (setKey kvs "config" (JVal.jobj (eraseKey cfg "batch_shape")))
        | some _ => layer
        | none => layer
      | _ => layer
    else layer
  | _ => layer

/-- Lines 43-53 of convert_model_final.py: walk `config["layers"]` and fix
every InputLayer in place. -/
def fixLayers (mt : List (String × JVal)) : List (String × JVal) :=
  match lookupKey mt "config" with
  | some (JVal.jobj cfg) =>
    match lookupKey cfg "layers" with
    | some (JVal.jarr layers) =>
      setKey mt "config" (JVal.jobj (setKey cfg "layers" (JVal.jarr (layers.map fixInputLayer))))
    | _ => mt
  | _ => mt

/-- Lines 35-59 of convert_model_final.py: rebuild the topology dict with
exactly the keys `class_name`, `config`, `keras_version`, `backend` (in that
insertion order), fix the InputLayer configs, then delete `build_config` and
`compile_config` if present. -/
def convert_model_topology (raw : List (String × JVal)) (tfVersion : String) :
    List (String × JVal) :=
  let mt : List (String × JVal) :=
    [("class_name", (lookupKey raw "class_name").getD (JVal.jstr "Sequential")),
     ("config", (lookupKey raw "config").getD (JVal.jobj [])),
     ("keras_version", (lookupKey raw "keras_version").getD (JVal.jstr tfVersion)),
     ("backend", JVal.jstr "tensorflow")]
  let mt2 := fixLayers mt
  let mt3 := eraseKey mt2 "build_config"
  eraseKey mt3 "compile_config"

/-- The `config` object of a layer JSON value, when present. -/
def configOf (layer : JVal) : Option (List (String × JVal)) :=
  match layer with
  | JVal.jobj kvs =>
    match lookupKey kvs "config" with
    | some (JVal.jobj cfg) => some cfg
    | _ => none
  | _ => none

/-- The config of an InputLayer after the batch_shape fix (empty when the
layer has no config object; the claims only use it under hypotheses that
guarantee a config object is present). -/
def transformedConfig (kvs : List (String × JVal)) : List (String × JVal) :=
  (configOf (fixInputLayer (JVal.jobj kvs))).getD []

/-- The values `batch_shape` can take in the Keras serialization schema:
absent, JSON null, or a JSON array. -/
def kerasBatchShape (o : Option JVal) : Prop :=
  o = none ∨ o = some JVal.jnull ∨ ∃ bs, o = some (JVal.jarr bs)

/-- A weight tensor.  Keras weights are 32-bit floats; `data` is the tensor's
row-major (numpy C-order) flattening, each element the float's 32-bit
pattern as a natural number below 2^32, and `shape` the declared dimensions. -/
structure Tensor where
  shape : List Nat
  data : List Nat
deriving DecidableEq

/-- A Keras layer as seen by the converter: its `name` and the list returned
by `layer.get_weights()` (kernel first, then bias, for a Dense layer). -/
structure KLayer where
  name : String
  weights : List Tensor
deriving DecidableEq

/-- A Keras model as seen by the converter: the ordered `model.layers`. -/
structure KModel where
  layers : List KLayer
deriving DecidableEq

/-- Keras semantics of `model.get_weights()` (line 62): the per-layer weight
lists concatenated in layer-declaration order, exactly
`[w for layer in model.layers for w in layer.get_weights()]`. -/
def get_weights (m : KModel) : List Tensor :=
  (m.layers.map KLayer.weights).flatten

/-- The shard file name for global weight index `i` (lines 85 and 126):
`group<i>-shard1of1.bin`. -/
def groupName (i : Nat) : String :=
  "group" ++ toString i ++ "-shard1of1.bin"

/-- One entry of the weights manifest (lines 94-98). -/
structure WeightInfo where
  name : String
  shape : List Nat
  dtype : String
deriving DecidableEq

/-- Lines 83-99 for one layer: `for i, weight in enumerate(layer_weights)`,
pairing the shard file name for the running global index `gidx` with the
manifest entry; `i` is the per-layer enumerate counter (0 names the tensor
`<layer>/kernel`, every other index names it `<layer>/bias`). -/
def entriesFor (lname : String) (ws : List Tensor) (gidx i : Nat) :
    List (String × WeightInfo) :=
  match ws with
  | [] => []
  | w :: rest =>
    (groupName gidx,
      { name := if i = 0 then lname ++ "/kernel" else lname ++ "/bias",
        shape := w.shape,
        dtype := "float32" }) :: entriesFor lname rest (gidx + 1) (i + 1)

/-- Lines 80-99: the metadata pass.  Walk `model.layers`; for each layer with
a nonempty weight list, emit its entries, threading the global `weight_index`
through (paths are the first components, manifest entries the second). -/
def buildWeightLists (ls : List KLayer) (gidx : Nat) : List (String × WeightInfo) :=
  match ls with
  | [] => []
  | l :: rest =>
    if l.weights.length > 0 then
      entriesFor l.name l.weights gidx 0 ++ buildWeightLists rest (gidx + l.weights.length)
    else
      buildWeightLists rest gidx

/-- The four bytes of a 32-bit word in little-endian order: on a little-endian
host this is the in-memory representation of a numpy float32 element. -/
def leBytes (w : Nat) : List Nat :=
  [w % 256, w / 256 % 256, w / 65536 % 256, w / 16777216 % 256]

/-- Lines 130-132 for one tensor: `weight.flatten().astype(np.float32)`
followed by `weight_flat.byteswap(False).tofile(...)`.
`ndarray.byteswap(inplace=False)` returns a copy with the bytes of every
element swapped, and `tofile` dumps that memory, so each element's bytes are
written in reverse of the host (little-endian) order. -/
def tensorFileBytes (t : Tensor) : List Nat :=
  (t.data.map (fun w => (leBytes w).reverse)).flatten

/-- Lines 124-134: the file-writing pass.  Walk the flat `all_weights` list,
pairing the shard file name for the running global index with the bytes
written to it. -/
def writeShards (ws : List Tensor) (gidx : Nat) : List (String × List Nat) :=
  match ws with
  | [] => []
  | w :: rest => (groupName gidx, tensorFileBytes w) :: writeShards rest (gidx + 1)

/-- Decoding a byte stream as little-endian 32-bit words, the read-back
direction of the spec's round-trip property. -/
def readLEWords : List Nat → List Nat
  | b0 :: b1 :: b2 :: b3 :: rest =>
    (b0 + 256 * b1 + 65536 * b2 + 16777216 * b3) :: readLEWords rest
  | _ => []

/-- One group of the weights manifest (lines 102-105). -/
structure ManifestGroup where
  paths : List String
  weights : List WeightInfo

/-- The `model.json` contents (lines 108-114). -/
structure ModelJson where
  modelTopology : List (String × JVal)
  weightsManifest : List ManifestGroup
  format : String
  generatedBy : String
  convertedBy : String

/-- A file in the output directory: either a raw binary shard or the
`model.json` document (whose on-disk bytes are a deterministic function of
the value, `json.dump` with a fixed indent). -/
inductive FileData where
  | bin (bytes : List Nat)
  | jsonFile (j : ModelJson)

/-- A successfully loaded Keras model as the converter consumes it: the
parsed `model.to_json()` dictionary, the layers/weights, and the installed
`tf.keras.__version__` used as the fallback version tag. -/
structure LoadedModel where
  rawTopology : List (String × JVal)
  net : KModel
  tfVersion : String

/-- The filesystem state `convert_model` interacts with:
`kerasModelFile = none` models a missing `model/keras_model.keras`,
`some none` a file that exists but fails to load, `some (some lm)` a
loadable model; `tfjsDir` is the output directory's contents, `none` when
the directory does not exist. -/
structure ConvState where
  kerasModelFile : Option (Option LoadedModel)
  tfjsDir : Option (List (String × FileData))

/-- Lines 73-105 assembled: the single manifest group with the parallel
`paths`/`weights` lists, and lines 108-114: the `model.json` value. -/
def mkModelJson (lm : LoadedModel) : ModelJson :=
  let entries := buildWeightLists lm.net.layers 0
  { modelTopology := convert_model_topology lm.rawTopology lm.tfVersion,
    weightsManifest := [⟨entries.map Prod.fst, entries.map Prod.snd⟩],
    format := "layers-model",
    generatedBy := "tensorflowjs",
    convertedBy := "manual-conversion" }

/-- Lines 116-134: the files present in the output directory after a
successful run — `model.json` plus one binary shard per weight tensor. -/
def outputDirContents (lm : LoadedModel) : List (String × FileData) :=
  ("model.json", FileData.jsonFile (mkModelJson lm)) ::
    (writeShards (get_weights lm.net) 0).map (fun p => (p.1, FileData.bin p.2))

/-- The function `convert_model()` of convert_model_final.py as a state transformer:
missing input file (lines 17-19) or load failure (lines 22-27) return
`False` with no write; otherwise the output directory is deleted if present
and rebuilt from scratch (lines 66-69), `model.json` and the shards are
written (lines 116-134), and `True` is returned. -/
def convert_model (st : ConvState) : Bool × ConvState :=
  match st.kerasModelFile with
  | none => (false, st)
  | some none => (false, st)
  | some (some lm) => (true, { st with tfjsDir := some (outputDirContents lm) })

/-- A MediaPipe hand landmark; the normalized coordinates are floats the
scripts only ever copy, so they are carried at an abstract type `α`. -/
structure Landmark (α : Type) where
  x : α
  y : α
  z : α
deriving DecidableEq

/-- The value `extract_landmarks` returns for a detected hand (lines 75-78):
the per-landmark records and the flat feature list. -/
structure HandRecord (α : Type) where
  landmarks : List (Landmark α)
  features : List α
deriving DecidableEq

/-- The function `extract_landmarks(image_path, hands_model)` of process_dataset.py
lines 48-80.  The externally produced data is the input: `none` when
`cv2.imread` cannot read the image, otherwise the
`results.multi_hand_landmarks` list (MediaPipe's `None` and an empty list
behave identically under `if results.multi_hand_landmarks and len(...) > 0`,
so both are modelled as `[]`).  For the first detected hand the features
list is built by `features.extend([landmark.x, landmark.y, landmark.z])` in
landmark order. -/
def extract_landmarks {α : Type} (image : Option (List (List (Landmark α)))) :
    Option (HandRecord α) :=
  match image with
  | none => none
  | some [] => none
  | some (first :: _) =>
    some { landmarks := first,
           features := (first.map (fun lm => [lm.x, lm.y, lm.z])).flatten }

/-- The four output gesture classes of process_dataset.py. -/
inductive GClass where
  | pointing
  | pinch
  | open_palm
  | idle
deriving DecidableEq

/-- The lookup `GESTURE_MAPPING.get(gesture_name, "idle")` (lines 20-46 and 122): the
explicit non-idle bindings of the dict; every explicitly-idle binding
(fist, three, four, call, mute, peace, like, dislike, rock, stop_inverted,
no_gesture) and every unmapped name fall through to `idle`, exactly as the
dict plus the `.get` default do. -/
def GESTURE_MAPPING (g : String) : GClass :=
  if g = "point_up" then GClass.pointing
  else if g = "one" then GClass.pointing
  else if g = "ok" then GClass.pinch
  else if g = "two" then GClass.pinch
  else if g = "open_palm" then GClass.open_palm
  else if g = "five" then GClass.open_palm
  else if g = "stop" then GClass.open_palm
  else GClass.idle

/-- One record appended to `collected_data` (lines 143-150); the fixed
`"source": "haGRID"` field is common to every record and omitted. -/
structure Sample (α : Type) where
  label : GClass
  record : HandRecord α
  original_gesture : String
  image_path : String

/-- The loop state of `process_haGRID_dataset`: `collected_data` and
`class_counts` (lines 109-110). -/
structure PState (α : Type) where
  collected_data : List (Sample α)
  class_counts : GClass → Nat

/-- The initial loop state: no samples, all four counters zero (lines
109-110). -/
def initialPState (α : Type) : PState α :=
  { collected_data := [], class_counts := fun _ => 0 }

/-- One gesture directory of the HaGRID dataset: its name and, for each
image file found in it, the image's path together with the externally
produced MediaPipe input consumed by `extract_landmarks`. -/
structure GestureDir (α : Type) where
  name : String
  images : List (String × Option (List (List (Landmark α))))

/-- Lines 136-151, the inner image loop: before each image, break when the
class counter has reached the cap; otherwise run `extract_landmarks` and, on
success, append the sample and increment exactly this class's counter. -/
def processImages {α : Type} (ourClass : GClass) (gname : String) (maxS : Nat)
    (imgs : List (String × Option (List (List (Landmark α))))) (st : PState α) :
    PState α :=
  match imgs with
  | [] => st
  | (path, img) :: rest =>
    if maxS ≤ st.class_counts ourClass then st
    else
      match extract_landmarks img with
      | some hd =>
        processImages ourClass gname maxS rest
          { collected_data := st.collected_data ++
              [{ label := ourClass, record := hd,
                 original_gesture := gname, image_path := path }],
            class_counts := fun c =>
              if c = ourClass then st.class_counts c + 1 else st.class_counts c }
      | none => processImages ourClass gname maxS rest st

/-- Lines 118-151, the outer directory loop: map the directory name to a
class, skip the directory when that class is already full, otherwise run the
image loop. -/
def process_dirs {α : Type} (maxS : Nat) (dirs : List (GestureDir α))
    (st : PState α) : PState α :=
  match dirs with
  | [] => st
  | d :: rest =>
    let ourClass := GESTURE_MAPPING d.name
    if maxS ≤ st.class_counts ourClass then process_dirs maxS rest st
    else process_dirs maxS rest (processImages ourClass d.name maxS d.images st)

/-- The filesystem state `process_haGRID_dataset` interacts with:
`datasetDirs = none` models a missing dataset root, otherwise its gesture
subdirectories; `outputFile` holds the JSON samples written to the output
path, `none` when the file does not exist. -/
structure DataState (α : Type) where
  datasetDirs : Option (List (GestureDir α))
  outputFile : Option (List (Sample α))

/-- The function `process_haGRID_dataset` of process_dataset.py lines 82-165 as a state
transformer: a missing dataset path returns before any write (lines 94-98);
otherwise the collection loops run from the empty state and the collected
samples are dumped to the output file (lines 161-162). -/
def process_haGRID_dataset {α : Type} (st : DataState α) (maxS : Nat) :
    DataState α :=
  match st.datasetDirs with
  | none => st
  | some dirs =>
    let final := process_dirs maxS dirs (initialPState α)
    { st with outputFile := some final.collected_data }

/-! ### Association-list lemmas -/

theorem lookupKey_setKey_self (kvs : List (String × JVal)) (k : String) (v : JVal) :
    lookupKey (setKey kvs k v) k = some v := by
  induction kvs with
  | nil => simp [setKey, lookupKey]
  | cons p rest ih =>
    obtain ⟨k1, v1⟩ := p
    by_cases h : k1 = k
    · simp [setKey, h, lookupKey]
    · simp [setKey, h, lookupKey, ih]

theorem lookupKey_setKey_ne (kvs : List (String × JVal)) (k k1 : String) (v : JVal)
    (h : k1 ≠ k) : lookupKey (setKey kvs k v) k1 = lookupKey kvs k1 := by
  have hk : ¬ k = k1 := fun hh => h hh.symm
  induction kvs with
  | nil => simp [setKey, lookupKey, hk]
  | cons p rest ih =>
    obtain ⟨k2, v2⟩ := p
    by_cases h2 : k2 = k
    · simp [setKey, h2, lookupKey, hk]
    · by_cases h3 : k2 = k1
      · simp [setKey, h2, lookupKey, h3, h]
      · simp [setKey, h2, lookupKey, h3, ih]

theorem lookupKey_eraseKey_self (kvs : List (String × JVal)) (k : String) :
    lookupKey (eraseKey kvs k) k = none := by
  induction kvs with
  | nil => rfl
  | cons p rest ih =>
    obtain ⟨k1, v1⟩ := p
    by_cases h : k1 = k
    · simpa [eraseKey, h] using ih
    · simpa [eraseKey, List.filter_cons, h, lookupKey] using ih

theorem lookupKey_eraseKey_ne (kvs : List (String × JVal)) (k k1 : String)
    (h : k1 ≠ k) : lookupKey (eraseKey kvs k) k1 = lookupKey kvs k1 := by
  have hk : ¬ k = k1 := fun hh => h hh.symm
  induction kvs with
  | nil => rfl
  | cons p rest ih =>
    obtain ⟨k2, v2⟩ := p
    by_cases h2 : k2 = k
    · simpa [eraseKey, List.filter_cons, h2, lookupKey, hk] using ih
    · by_cases h3 : k2 = k1
      · simp [eraseKey, List.filter_cons, lookupKey, h2, h3, h]
      · simpa [eraseKey, List.filter_cons, lookupKey, h2, h3] using ih

theorem keys_setKey (kvs : List (String × JVal)) (k : String) (v : JVal)
    (h : lookupKey kvs k ≠ none) :
    (setKey kvs k v).map Prod.fst = kvs.map Prod.fst := by
  induction kvs with
  | nil => simp [lookupKey] at h
  | cons p rest ih =>
    obtain ⟨k1, v1⟩ := p
    by_cases h1 : k1 = k
    · simp [setKey, h1]
    · have h2 : lookupKey rest k ≠ none := by
        simpa [lookupKey, h1] using h
      simp [setKey, h1, ih h2]

theorem eraseKey_of_not_mem (kvs : List (String × JVal)) (k : String)
    (h : k ∉ kvs.map Prod.fst) : eraseKey kvs k = kvs := by
  induction kvs with
  | nil => rfl
  | cons p rest ih =>
    obtain ⟨k1, v1⟩ := p
    simp only [List.map_cons, List.mem_cons] at h
    push_neg at h
    have h1 : ¬ k1 = k := fun hh => h.1 hh.symm
    have h2 : eraseKey rest k = rest := ih h.2
    calc eraseKey ((k1, v1) :: rest) k = (k1, v1) :: eraseKey rest k := by
          simp [eraseKey, List.filter_cons, h1]
      _ = (k1, v1) :: rest := by rw [h2]

theorem lookupKey_eq_none_of_not_mem (kvs : List (String × JVal)) (k : String)
    (h : k ∉ kvs.map Prod.fst) : lookupKey kvs k = none := by
  induction kvs with
  | nil => rfl
  | cons p rest ih =>
    obtain ⟨k1, v1⟩ := p
    simp only [List.map_cons, List.mem_cons] at h
    push_neg at h
    simp [lookupKey, h.1.symm, ih h.2]

/-! ### Topology transform lemmas -/

theorem keys_fixLayers (mt : List (String × JVal)) :
    (fixLayers mt).map Prod.fst = mt.map Prod.fst := by
  unfold fixLayers
  split
  next cfg hc =>
    split
    next layers hl => exact keys_setKey mt "config" _ (by rw [hc]; simp)
    next => rfl
  next => rfl

theorem lookupKey_fixLayers_ne (mt : List (String × JVal)) (k : String)
    (h : k ≠ "config") : lookupKey (fixLayers mt) k = lookupKey mt k := by
  unfold fixLayers
  split
  next cfg hc =>
    split
    next layers hl => exact lookupKey_setKey_ne mt "config" k _ h
    next => rfl
  next => rfl

theorem fixInputLayer_arr (kvs cfg : List (String × JVal)) (bs : List JVal)
    (hcn : lookupKey kvs "class_name" = some (JVal.jstr "InputLayer"))
    (hcfg : lookupKey kvs "config" = some (JVal.jobj cfg))
    (harr : lookupKey cfg "batch_shape" = some (JVal.jarr bs)) :
    fixInputLayer (JVal.jobj kvs) =
      JVal.jobj (setKey kvs "config" (JVal.jobj (eraseKey
        (if bs.length > 1 then setKey cfg "inputShape" (JVal.jarr (List.drop 1 bs)) else cfg)
        "batch_shape"))) := by
  simp [fixInputLayer, hcn, hcfg, harr, isInputLayerTag]

theorem fixInputLayer_null (kvs cfg : List (String × JVal))
    (hcn : lookupKey kvs "class_name" = some (JVal.jstr "InputLayer"))
    (hcfg : lookupKey kvs "config" = some (JVal.jobj cfg))
    (hnull : lookupKey cfg "batch_shape" = some JVal.jnull) :
    fixInputLayer (JVal.jobj kvs) =
      JVal.jobj (setKey kvs "config" (JVal.jobj (eraseKey cfg "batch_shape"))) := by
  simp [fixInputLayer, hcn, hcfg, hnull, isInputLayerTag]

theorem fixInputLayer_absent (kvs cfg : List (String × JVal))
    (hcn : lookupKey kvs "class_name" = some (JVal.jstr "InputLayer"))
    (hcfg : lookupKey kvs "config" = some (JVal.jobj cfg))
    (hnone : lookupKey cfg "batch_shape" = none) :
    fixInputLayer (JVal.jobj kvs) = JVal.jobj kvs := by
  simp [fixInputLayer, hcn, hcfg, hnone, isInputLayerTag]

theorem transformedConfig_of_set (kvs : List (String × JVal)) (cfg2 : List (String × JVal))
    (h : fixInputLayer (JVal.jobj kvs) =
      JVal.jobj (setKey kvs "config" (JVal.jobj cfg2))) :
    transformedConfig kvs = cfg2 := by
  unfold transformedConfig configOf
  rw [h]
  simp [lookupKey_setKey_self]

/-- Claim C3: for every InputLayer, a `batch_shape` of length > 1 becomes
`inputShape` equal to its tail and the `batch_shape` key is removed; a
`batch_shape` of length ≤ 1 is removed without setting `inputShape` (the
`inputShape` binding, normally absent, is left exactly as it was); and in
every case of the Keras schema (absent, null, or array `batch_shape`) the
transformed InputLayer config contains no `batch_shape` key. -/
theorem inputLayer_batch_shape_fix (kvs cfg : List (String × JVal))
    (hcn : lookupKey kvs "class_name" = some (JVal.jstr "InputLayer"))
    (hcfg : lookupKey kvs "config" = some (JVal.jobj cfg))
    (hdom : kerasBatchShape (lookupKey cfg "batch_shape")) :
    lookupKey (transformedConfig kvs) "batch_shape" = none ∧
    (∀ bs, lookupKey cfg "batch_shape" = some (JVal.jarr bs) →
      (1 < bs.length →
        lookupKey (transformedConfig kvs) "inputShape" =
          some (JVal.jarr (List.drop 1 bs))) ∧
      (bs.length ≤ 1 →
        lookupKey (transformedConfig kvs) "inputShape" = lookupKey cfg "inputShape")) := by
  rcases hdom with hnone | hnull | ⟨bs0, hbs0⟩
  · have ht : transformedConfig kvs = cfg := by
      unfold transformedConfig configOf
      rw [fixInputLayer_absent kvs cfg hcn hcfg hnone]
      simp [hcfg]
    refine ⟨by rw [ht, hnone], ?_⟩
    intro bs hbs
    rw [hnone] at hbs
    exact absurd hbs (by simp)
  · have ht : transformedConfig kvs = eraseKey cfg "batch_shape" :=
      transformedConfig_of_set kvs _ (fixInputLayer_null kvs cfg hcn hcfg hnull)
    refine ⟨by rw [ht]; exact lookupKey_eraseKey_self cfg "batch_shape", ?_⟩
    intro bs hbs
    rw [hnull] at hbs
    exact absurd hbs (by simp)
  · have ht : transformedConfig kvs = eraseKey
        (if bs0.length > 1 then setKey cfg "inputShape" (JVal.jarr (List.drop 1 bs0)) else cfg)
        "batch_shape" :=
      transformedConfig_of_set kvs _ (fixInputLayer_arr kvs cfg bs0 hcn hcfg hbs0)
    refine ⟨by rw [ht]; exact lookupKey_eraseKey_self _ "batch_shape", ?_⟩
    intro bs hbs
    rw [hbs0] at hbs
    have hbs' : bs = bs0 := by
      cases hbs
      rfl
    subst hbs'
    constructor
    · intro hlen
      rw [ht, if_pos hlen]
      rw [lookupKey_eraseKey_ne _ _ _ (by simp), lookupKey_setKey_self]
    · intro hlen
      rw [ht, if_neg (by omega)]
      exact lookupKey_eraseKey_ne cfg _ _ (by simp)

/-- Witness for `inputLayer_batch_shape_fix`: a concrete InputLayer whose
`batch_shape` is `[null, 63]` is transformed to `inputShape == [63]` with the
`batch_shape` key gone. -/
theorem inputLayer_batch_shape_fix_witness :
    lookupKey
      [("class_name", JVal.jstr "InputLayer"),
       ("config", JVal.jobj [("batch_shape", JVal.jarr [JVal.jnull, JVal.jint 63])])]
      "class_name" = some (JVal.jstr "InputLayer") ∧
    lookupKey (transformedConfig
      [("class_name", JVal.jstr "InputLayer"),
       ("config", JVal.jobj [("batch_shape", JVal.jarr [JVal.jnull, JVal.jint 63])])])
      "batch_shape" = none ∧
    lookupKey (transformedConfig
      [("class_name", JVal.jstr "InputLayer"),
       ("config", JVal.jobj [("batch_shape", JVal.jarr [JVal.jnull, JVal.jint 63])])])
      "inputShape" = some (JVal.jarr [JVal.jint 63]) := by
  have h := inputLayer_batch_shape_fix
    [("class_name", JVal.jstr "InputLayer"),
     ("config", JVal.jobj [("batch_shape", JVal.jarr [JVal.jnull, JVal.jint 63])])]
    [("batch_shape", JVal.jarr [JVal.jnull, JVal.jint 63])]
    rfl rfl (Or.inr (Or.inr ⟨[JVal.jnull, JVal.jint 63], rfl⟩))
  exact ⟨rfl, h.1, (h.2 [JVal.jnull, JVal.jint 63] rfl).1 (by decide)⟩

/-- Claim C4: for every input topology the produced descriptor's top level
has exactly the keys `class_name`, `config`, `keras_version`, `backend` (so
neither `build_config` nor `compile_config` survives) and carries the fixed
backend tag `"tensorflow"`. -/
theorem topology_top_level_keys (raw : List (String × JVal)) (tfVersion : String) :
    (convert_model_topology raw tfVersion).map Prod.fst =
      ["class_name", "config", "keras_version", "backend"] ∧
    lookupKey (convert_model_topology raw tfVersion) "build_config" = none ∧
    lookupKey (convert_model_topology raw tfVersion) "compile_config" = none ∧
    lookupKey (convert_model_topology raw tfVersion) "backend" =
      some (JVal.jstr "tensorflow") := by
  have hkeys2 : (fixLayers
      [("class_name", (lookupKey raw "class_name").getD (JVal.jstr "Sequential")),
       ("config", (lookupKey raw "config").getD (JVal.jobj [])),
       ("keras_version", (lookupKey raw "keras_version").getD (JVal.jstr tfVersion)),
       ("backend", JVal.jstr "tensorflow")]).map Prod.fst =
      ["class_name", "config", "keras_version", "backend"] := by
    rw [keys_fixLayers]
    rfl
  have hb : "build_config" ∉ (fixLayers
      [("class_name", (lookupKey raw "class_name").getD (JVal.jstr "Sequential")),
       ("config", (lookupKey raw "config").getD (JVal.jobj [])),
       ("keras_version", (lookupKey raw "keras_version").getD (JVal.jstr tfVersion)),
       ("backend", JVal.jstr "tensorflow")]).map Prod.fst := by
    rw [hkeys2]
    simp
  have hc : "compile_config" ∉ (fixLayers
      [("class_name", (lookupKey raw "class_name").getD (JVal.jstr "Sequential")),
       ("config", (lookupKey raw "config").getD (JVal.jobj [])),
       ("keras_version", (lookupKey raw "keras_version").getD (JVal.jstr tfVersion)),
       ("backend", JVal.jstr "tensorflow")]).map Prod.fst := by
    rw [hkeys2]
    simp
  have hconv : convert_model_topology raw tfVersion = fixLayers
      [("class_name", (lookupKey raw "class_name").getD (JVal.jstr "Sequential")),
       ("config", (lookupKey raw "config").getD (JVal.jobj [])),
       ("keras_version", (lookupKey raw "keras_version").getD (JVal.jstr tfVersion)),
       ("backend", JVal.jstr "tensorflow")] := by
    simp only [convert_model_topology]
    rw [eraseKey_of_not_mem _ _ hb, eraseKey_of_not_mem _ _ hc]
  refine ⟨by rw [hconv, hkeys2], ?_, ?_, ?_⟩
  · rw [hconv]
    exact lookupKey_eq_none_of_not_mem _ _ hb
  · rw [hconv]
    exact lookupKey_eq_none_of_not_mem _ _ hc
  · rw [hconv, lookupKey_fixLayers_ne _ _ (by simp)]
    simp [lookupKey]

/-! ### Weights manifest and shard-writing lemmas -/

theorem entriesFor_length (lname : String) (ws : List Tensor) (gidx i : Nat) :
    (entriesFor lname ws gidx i).length = ws.length := by
  induction ws generalizing gidx i with
  | nil => rfl
  | cons w rest ih => simp [entriesFor, ih]

theorem entriesFor_shapes (lname : String) (ws : List Tensor) (gidx i : Nat) :
    (entriesFor lname ws gidx i).map (fun e => e.2.shape) = ws.map Tensor.shape := by
  induction ws generalizing gidx i with
  | nil => rfl
  | cons w rest ih => simp [entriesFor, ih]

theorem entriesFor_paths (lname : String) (ws : List Tensor) (gidx i : Nat) :
    (entriesFor lname ws gidx i).map Prod.fst =
      (List.range ws.length).map (fun j => groupName (gidx + j)) := by
  induction ws generalizing gidx i with
  | nil => rfl
  | cons w rest ih =>
    simp only [entriesFor, List.map_cons, List.length_cons, List.range_succ_eq_map,
      List.map_map, ih]
    refine congrArg₂ List.cons (by rw [Nat.add_zero]) ?_
    apply List.map_congr_left
    intro a _
    simp only [Function.comp_apply]
    have harith : gidx + 1 + a = gidx + a.succ := by omega
    rw [harith]

theorem writeShards_paths (ws : List Tensor) (gidx : Nat) :
    (writeShards ws gidx).map Prod.fst =
      (List.range ws.length).map (fun j => groupName (gidx + j)) := by
  induction ws generalizing gidx with
  | nil => rfl
  | cons w rest ih =>
    simp only [writeShards, List.map_cons, List.length_cons, List.range_succ_eq_map,
      List.map_map, ih]
    refine congrArg₂ List.cons (by rw [Nat.add_zero]) ?_
    apply List.map_congr_left
    intro a _
    simp only [Function.comp_apply]
    have harith : gidx + 1 + a = gidx + a.succ := by omega
    rw [harith]

theorem writeShards_bytes (ws : List Tensor) (gidx : Nat) :
    (writeShards ws gidx).map Prod.snd = ws.map tensorFileBytes := by
  induction ws generalizing gidx with
  | nil => rfl
  | cons w rest ih => simp [writeShards, ih]

theorem writeShards_length (ws : List Tensor) (gidx : Nat) :
    (writeShards ws gidx).length = ws.length := by
  induction ws generalizing gidx with
  | nil => rfl
  | cons w rest ih => simp [writeShards, ih]

theorem buildWeightLists_shapes (ls : List KLayer) (gidx : Nat) :
    (buildWeightLists ls gidx).map (fun e => e.2.shape) =
      ((ls.map KLayer.weights).flatten).map Tensor.shape := by
  induction ls generalizing gidx with
  | nil => rfl
  | cons l rest ih =>
    by_cases h : l.weights.length > 0
    · simp [buildWeightLists, h, entriesFor_shapes, ih]
    · have hw : l.weights = [] := by
        cases hws : l.weights with
        | nil => rfl
        | cons a b => rw [hws] at h; simp at h
      simp [buildWeightLists, h, hw, ih]

theorem buildWeightLists_paths (ls : List KLayer) (gidx : Nat) :
    (buildWeightLists ls gidx).map Prod.fst =
      (List.range ((ls.map KLayer.weights).flatten.length)).map
        (fun j => groupName (gidx + j)) := by
  induction ls generalizing gidx with
  | nil => rfl
  | cons l rest ih =>
    by_cases h : l.weights.length > 0
    · simp only [buildWeightLists, if_pos h, List.map_append, entriesFor_paths, ih,
        List.map_cons, List.flatten_cons, List.length_append, List.range_add,
        List.map_map]
      congr 1
      apply List.map_congr_left
      intro a _
      simp only [Function.comp_apply]
      have harith : gidx + l.weights.length + a = gidx + (l.weights.length + a) := by omega
      rw [harith]
    · have hw : l.weights = [] := by
        cases hws : l.weights with
        | nil => rfl
        | cons a b => rw [hws] at h; simp at h
      simp [buildWeightLists, h, hw, ih]

theorem buildWeightLists_length (ls : List KLayer) (gidx : Nat) :
    (buildWeightLists ls gidx).length = (ls.map KLayer.weights).flatten.length := by
  have h := congrArg List.length (buildWeightLists_paths ls gidx)
  simpa using h

theorem flatten_length_of_two (ls : List KLayer)
    (h : ∀ l ∈ ls, l.weights.length = 2) :
    ((ls.map KLayer.weights).flatten).length = 2 * ls.length := by
  induction ls with
  | nil => rfl
  | cons l rest ih =>
    have hl : l.weights.length = 2 := h l (by simp)
    have hrest := ih (fun x hx => h x (by simp [hx]))
    simp only [List.map_cons, List.flatten_cons, List.length_append, hl, hrest,
      List.length_cons]
    omega

/-- Claim C1: the layer-by-layer manifest pass and the flat file-writing pass
enumerate the same tensors in the same order: the manifest has one entry per
written file, the i-th manifest path is `group<i>-shard1of1.bin` and equals
the name of the i-th written file, the i-th manifest shape is the shape of
the i-th tensor of `model.get_weights()`, whose serialized bytes are the
i-th file's contents; for a model of L layers with exactly 2 tensors each
the manifest has 2L entries named `group0` through `group(2L-1)`. -/
theorem manifest_matches_written_files (m : KModel) :
    (buildWeightLists m.layers 0).length = (get_weights m).length ∧
    (buildWeightLists m.layers 0).map Prod.fst =
      (writeShards (get_weights m) 0).map Prod.fst ∧
    (buildWeightLists m.layers 0).map Prod.fst =
      (List.range (get_weights m).length).map groupName ∧
    (buildWeightLists m.layers 0).map (fun e => e.2.shape) =
      (get_weights m).map Tensor.shape ∧
    (writeShards (get_weights m) 0).map Prod.snd =
      (get_weights m).map tensorFileBytes ∧
    ((∀ l ∈ m.layers, l.weights.length = 2) →
      (buildWeightLists m.layers 0).length = 2 * m.layers.length ∧
      (buildWeightLists m.layers 0).map Prod.fst =
        (List.range (2 * m.layers.length)).map groupName) := by
  have hlen : (buildWeightLists m.layers 0).length = (get_weights m).length := by
    rw [buildWeightLists_length]
    rfl
  have hpaths : (buildWeightLists m.layers 0).map Prod.fst =
      (List.range (get_weights m).length).map groupName := by
    rw [buildWeightLists_paths]
    exact List.map_congr_left (fun a _ => by rw [Nat.zero_add])
  have hshards : (writeShards (get_weights m) 0).map Prod.fst =
      (List.range (get_weights m).length).map groupName := by
    rw [writeShards_paths]
    exact List.map_congr_left (fun a _ => by rw [Nat.zero_add])
  refine ⟨hlen, by rw [hpaths, hshards], hpaths, ?_, writeShards_bytes _ _, ?_⟩
  · rw [buildWeightLists_shapes]
    rfl
  · intro h2
    have htot : (get_weights m).length = 2 * m.layers.length :=
      flatten_length_of_two m.layers h2
    exact ⟨by rw [hlen, htot], by rw [hpaths, htot]⟩

/-- Witness for `manifest_matches_written_files`: a concrete 2-layer model
with two tensors per layer has a 4-entry manifest named `group0..group3`. -/
theorem manifest_matches_written_files_witness :
    (∀ l ∈ (KModel.mk
        [KLayer.mk "dense_1" [Tensor.mk [2, 1] [7, 8], Tensor.mk [1] [9]],
         KLayer.mk "dense_2" [Tensor.mk [1, 1] [5], Tensor.mk [1] [6]]]).layers,
      l.weights.length = 2) ∧
    (buildWeightLists (KModel.mk
        [KLayer.mk "dense_1" [Tensor.mk [2, 1] [7, 8], Tensor.mk [1] [9]],
         KLayer.mk "dense_2" [Tensor.mk [1, 1] [5], Tensor.mk [1] [6]]]).layers 0).length =
      2 * (KModel.mk
        [KLayer.mk "dense_1" [Tensor.mk [2, 1] [7, 8], Tensor.mk [1] [9]],
         KLayer.mk "dense_2" [Tensor.mk [1, 1] [5], Tensor.mk [1] [6]]]).layers.length ∧
    (buildWeightLists (KModel.mk
        [KLayer.mk "dense_1" [Tensor.mk [2, 1] [7, 8], Tensor.mk [1] [9]],
         KLayer.mk "dense_2" [Tensor.mk [1, 1] [5], Tensor.mk [1] [6]]]).layers 0).map Prod.fst =
      (List.range (2 * (KModel.mk
        [KLayer.mk "dense_1" [Tensor.mk [2, 1] [7, 8], Tensor.mk [1] [9]],
         KLayer.mk "dense_2" [Tensor.mk [1, 1] [5], Tensor.mk [1] [6]]]).layers.length)).map
        groupName := by
  refine ⟨by decide, ?_⟩
  have h := (manifest_matches_written_files (KModel.mk
      [KLayer.mk "dense_1" [Tensor.mk [2, 1] [7, 8], Tensor.mk [1] [9]],
       KLayer.mk "dense_2" [Tensor.mk [1, 1] [5], Tensor.mk [1] [6]]])).2.2.2.2.2
    (by decide)
  exact h

/-- Claim C9: within a layer, the tensor at enumerate index 0 is named
`<layerName>/kernel` and every tensor at index ≥ 1 is named
`<layerName>/bias`; a layer with three or more tensors therefore repeats the
`<layerName>/bias` name (at manifest positions 1 and 2). -/
theorem layer_tensor_naming (l : KLayer) (gidx : Nat) :
    (0 < l.weights.length →
      ((entriesFor l.name l.weights gidx 0).map (fun e => e.2.name))[0]? =
        some (l.name ++ "/kernel")) ∧
    (∀ i, 1 ≤ i → i < l.weights.length →
      ((entriesFor l.name l.weights gidx 0).map (fun e => e.2.name))[i]? =
        some (l.name ++ "/bias")) ∧
    (3 ≤ l.weights.length →
      ((entriesFor l.name l.weights gidx 0).map (fun e => e.2.name))[1]? =
        some (l.name ++ "/bias") ∧
      ((entriesFor l.name l.weights gidx 0).map (fun e => e.2.name))[2]? =
        some (l.name ++ "/bias")) := by
  have hget : ∀ (ws : List Tensor) (g i k : Nat), k < ws.length →
      ((entriesFor l.name ws g i).map (fun e => e.2.name))[k]? =
        some (if i + k = 0 then l.name ++ "/kernel" else l.name ++ "/bias") := by
    intro ws
    induction ws with
    | nil => intro g i k hk; simp at hk
    | cons w rest ih =>
      intro g i k hk
      cases k with
      | zero => simp [entriesFor]
      | succ k2 =>
        have hk2 : k2 < rest.length := by
          simp only [List.length_cons] at hk
          omega
        have := ih (g + 1) (i + 1) k2 hk2
        simp only [entriesFor, List.map_cons, List.getElem?_cons_succ, this]
        have harith : i + 1 + k2 = i + (k2 + 1) := by omega
        rw [harith]
  refine ⟨?_, ?_, ?_⟩
  · intro h0
    have := hget l.weights gidx 0 0 h0
    simpa using this
  · intro i h1 hi
    have := hget l.weights gidx 0 i hi
    have hne : ¬ 0 + i = 0 := by omega
    rw [this, if_neg hne]
  · intro h3
    constructor
    · have := hget l.weights gidx 0 1 (by omega)
      rw [this, if_neg (by omega)]
    · have := hget l.weights gidx 0 2 (by omega)
      rw [this, if_neg (by omega)]

/-- Witness for `layer_tensor_naming`: a concrete layer with three tensors
names them kernel, bias, bias. -/
theorem layer_tensor_naming_witness :
    0 < (KLayer.mk "bn" [Tensor.mk [2] [1, 2], Tensor.mk [2] [3, 4],
      Tensor.mk [2] [5, 6]]).weights.length ∧
    3 ≤ (KLayer.mk "bn" [Tensor.mk [2] [1, 2], Tensor.mk [2] [3, 4],
      Tensor.mk [2] [5, 6]]).weights.length ∧
    ((entriesFor "bn" [Tensor.mk [2] [1, 2], Tensor.mk [2] [3, 4],
        Tensor.mk [2] [5, 6]] 0 0).map (fun e => e.2.name))[0]? =
      some ("bn" ++ "/kernel") ∧
    ((entriesFor "bn" [Tensor.mk [2] [1, 2], Tensor.mk [2] [3, 4],
        Tensor.mk [2] [5, 6]] 0 0).map (fun e => e.2.name))[1]? =
      some ("bn" ++ "/bias") ∧
    ((entriesFor "bn" [Tensor.mk [2] [1, 2], Tensor.mk [2] [3, 4],
        Tensor.mk [2] [5, 6]] 0 0).map (fun e => e.2.name))[2]? =
      some ("bn" ++ "/bias") := by
  have h := layer_tensor_naming (KLayer.mk "bn" [Tensor.mk [2] [1, 2],
    Tensor.mk [2] [3, 4], Tensor.mk [2] [5, 6]]) 0
  exact ⟨by decide, by decide, h.1 (by decide), (h.2.2 (by decide)).1,
    (h.2.2 (by decide)).2⟩

/-- Claim C2 (code bug): the spec's round-trip — read the written `.bin`
back as little-endian float32 — fails on the code.  For the single float
1.0 (bit pattern 0x3F800000), the actual write of lines 130-132 produces
the byte-swapped (big-endian) bytes `3F 80 00 00`, whose little-endian
read-back is 0x0000803F ≠ 0x3F800000, while the intended little-endian
serialization `00 00 80 3F` round-trips exactly.  The cause is that
`ndarray.byteswap(False)` swaps unconditionally instead of ensuring
little-endian order as the adjacent comment claims. -/
theorem byteswap_breaks_le_roundtrip :
    tensorFileBytes (Tensor.mk [1] [1065353216]) = [63, 128, 0, 0] ∧
    readLEWords (tensorFileBytes (Tensor.mk [1] [1065353216])) = [32831] ∧
    (32831 : Nat) ≠ 1065353216 ∧
    leBytes 1065353216 = [0, 0, 128, 63] ∧
    readLEWords (leBytes 1065353216) = [1065353216] := by
  refine ⟨rfl, rfl, by decide, rfl, rfl⟩

theorem buildWeightLists_nil_weights (ls : List KLayer) (gidx : Nat)
    (h : ∀ l ∈ ls, l.weights = []) : buildWeightLists ls gidx = [] := by
  induction ls generalizing gidx with
  | nil => rfl
  | cons l rest ih =>
    have hl : l.weights = [] := h l (by simp)
    have hlen : ¬ l.weights.length > 0 := by simp [hl]
    simp [buildWeightLists, hlen, ih _ (fun x hx => h x (by simp [hx]))]

/-- Claim C5: a network with zero weight tensors does not make the
repackager fail — it returns success, the output directory holds exactly
`model.json`, no binary shard is written, and the weights manifest is the
one-element list `[{paths: [], weights: []}]`. -/
theorem empty_weight_network (st : ConvState) (lm : LoadedModel)
    (hfile : st.kerasModelFile = some (some lm))
    (hempty : get_weights lm.net = []) :
    convert_model st =
      (true, ConvState.mk st.kerasModelFile
        (some [("model.json", FileData.jsonFile (mkModelJson lm))])) ∧
    (mkModelJson lm).weightsManifest = [ManifestGroup.mk [] []] := by
  have hall : ∀ l ∈ lm.net.layers, l.weights = [] := by
    have := hempty
    unfold get_weights at this
    rw [List.flatten_eq_nil_iff] at this
    intro l hl
    exact this l.weights (List.mem_map_of_mem KLayer.weights hl)
  have hbwl : buildWeightLists lm.net.layers 0 = [] :=
    buildWeightLists_nil_weights lm.net.layers 0 hall
  have hmanifest : (mkModelJson lm).weightsManifest = [ManifestGroup.mk [] []] := by
    simp [mkModelJson, hbwl]
  have hshards : writeShards (get_weights lm.net) 0 = [] := by
    rw [hempty]
    rfl
  refine ⟨?_, hmanifest⟩
  simp [convert_model, hfile, outputDirContents, hshards]

/-- Witness for `empty_weight_network`: a concrete zero-weight model. -/
theorem empty_weight_network_witness :
    (ConvState.mk (some (some (LoadedModel.mk [] (KModel.mk [KLayer.mk "input" []]) "2.15"))) none).kerasModelFile =
      some (some (LoadedModel.mk [] (KModel.mk [KLayer.mk "input" []]) "2.15")) ∧
    get_weights (LoadedModel.mk [] (KModel.mk [KLayer.mk "input" []]) "2.15").net = [] ∧
    convert_model (ConvState.mk (some (some (LoadedModel.mk [] (KModel.mk [KLayer.mk "input" []]) "2.15"))) none) =
      (true, ConvState.mk (some (some (LoadedModel.mk [] (KModel.mk [KLayer.mk "input" []]) "2.15")))
        (some [("model.json", FileData.jsonFile
          (mkModelJson (LoadedModel.mk [] (KModel.mk [KLayer.mk "input" []]) "2.15")))])) ∧
    (mkModelJson (LoadedModel.mk [] (KModel.mk [KLayer.mk "input" []]) "2.15")).weightsManifest =
      [ManifestGroup.mk [] []] := by
  have h := empty_weight_network
    (ConvState.mk (some (some (LoadedModel.mk [] (KModel.mk [KLayer.mk "input" []]) "2.15"))) none)
    (LoadedModel.mk [] (KModel.mk [KLayer.mk "input" []]) "2.15") rfl rfl
  exact ⟨rfl, rfl, h.1, h.2⟩

/-- Claim C6: when the input model file (respectively the dataset root path)
does not exist, the run aborts with a failure result and performs no write —
the filesystem state is returned unchanged. -/
theorem missing_input_aborts_unchanged {α : Type} (st : ConvState)
    (ds : DataState α) (maxS : Nat)
    (h1 : st.kerasModelFile = none) (h2 : ds.datasetDirs = none) :
    convert_model st = (false, st) ∧ process_haGRID_dataset ds maxS = ds := by
  constructor
  · simp [convert_model, h1]
  · simp [process_haGRID_dataset, h2]

/-- Witness for `missing_input_aborts_unchanged`: concrete states with a
missing model file and a missing dataset root are returned unchanged. -/
theorem missing_input_aborts_unchanged_witness :
    (ConvState.mk none none).kerasModelFile = none ∧
    (DataState.mk (α := Int) none none).datasetDirs = none ∧
    convert_model (ConvState.mk none none) = (false, ConvState.mk none none) ∧
    process_haGRID_dataset (DataState.mk (α := Int) none none) 500 =
      DataState.mk (α := Int) none none := by
  have h := missing_input_aborts_unchanged (α := Int)
    (ConvState.mk none none) (DataState.mk none none) 500 rfl rfl
  exact ⟨rfl, rfl, h.1, h.2⟩

/-- Claim C7: running the repackager twice on the same input model and the
same output directory is idempotent — the output directory (and hence
`model.json` and every shard file, `json.dump` being a deterministic
function of the value) after the second run is identical to the state after
the first, whatever the directory held before. -/
theorem convert_model_idempotent (st : ConvState) :
    convert_model (convert_model st).2 = convert_model st := by
  obtain ⟨mf, dir⟩ := st
  cases mf with
  | none => rfl
  | some o =>
    cases o with
    | none => rfl
    | some lm => rfl

/-! ### Landmark extraction and dataset collection lemmas -/

theorem triples_flatten_length {α : Type} (l : List (Landmark α)) :
    ((l.map (fun lm => [lm.x, lm.y, lm.z])).flatten).length = 3 * l.length := by
  induction l with
  | nil => rfl
  | cons lm rest ih =>
    simp only [List.map_cons, List.flatten_cons, List.length_append, ih,
      List.length_cons]
    simp only [List.length_cons, List.length_nil]
    omega

/-- Claim C8: `extract_landmarks` returns nothing exactly when the image
cannot be read or no hand is detected; otherwise it returns one record for
the first detected hand whose features list is the in-order concatenation
of (x, y, z) per landmark, so its length is 3 times the landmark count
(63 for the 21-point hand model). -/
theorem extract_landmarks_spec {α : Type} (image : Option (List (List (Landmark α)))) :
    (extract_landmarks image = none ↔ image = none ∨ image = some []) ∧
    (∀ first rest, image = some (first :: rest) →
      extract_landmarks image =
        some (HandRecord.mk first
          ((first.map (fun lm => [lm.x, lm.y, lm.z])).flatten)) ∧
      ((first.map (fun lm => [lm.x, lm.y, lm.z])).flatten).length = 3 * first.length ∧
      (first.length = 21 →
        ((first.map (fun lm => [lm.x, lm.y, lm.z])).flatten).length = 63)) := by
  constructor
  · cases image with
    | none => simp [extract_landmarks]
    | some hands =>
      cases hands with
      | nil => simp [extract_landmarks]
      | cons f r => simp [extract_landmarks]
  · intro first rest himg
    subst himg
    refine ⟨rfl, triples_flatten_length first, ?_⟩
    intro h21
    rw [triples_flatten_length, h21]

/-- Witness for `extract_landmarks_spec`: a two-landmark hand yields the
six-element feature list, and unreadable/handless images yield nothing. -/
theorem extract_landmarks_spec_witness :
    extract_landmarks (some [[Landmark.mk (1 : Int) 2 3, Landmark.mk 4 5 6]]) =
      some (HandRecord.mk [Landmark.mk (1 : Int) 2 3, Landmark.mk 4 5 6]
        [1, 2, 3, 4, 5, 6]) ∧
    ((1 : Int) :: 2 :: 3 :: 4 :: 5 :: 6 :: []).length =
      3 * [Landmark.mk (1 : Int) 2 3, Landmark.mk 4 5 6].length ∧
    extract_landmarks (none : Option (List (List (Landmark Int)))) = none ∧
    extract_landmarks (some ([] : List (List (Landmark Int)))) = none := by
  have h := extract_landmarks_spec (some [[Landmark.mk (1 : Int) 2 3, Landmark.mk 4 5 6]])
  have h2 := h.2 [Landmark.mk (1 : Int) 2 3, Landmark.mk 4 5 6] [] rfl
  refine ⟨h2.1, by decide, ?_, ?_⟩
  · exact (extract_landmarks_spec (none : Option (List (List (Landmark Int))))).1.mpr
      (Or.inl rfl)
  · exact (extract_landmarks_spec (some ([] : List (List (Landmark Int))))).1.mpr
      (Or.inr rfl)

theorem processImages_counts_le {α : Type} (cls : GClass) (gname : String)
    (maxS : Nat) (imgs : List (String × Option (List (List (Landmark α)))))
    (st : PState α) (c : GClass) (h : st.class_counts c ≤ maxS) :
    (processImages cls gname maxS imgs st).class_counts c ≤ maxS := by
  induction imgs generalizing st with
  | nil => exact h
  | cons p rest ih =>
    obtain ⟨path, img⟩ := p
    by_cases hfull : maxS ≤ st.class_counts cls
    · simpa [processImages, hfull] using h
    · cases hx : extract_landmarks img with
      | none =>
        simp only [processImages, if_neg hfull, hx]
        exact ih st h
      | some hd =>
        simp only [processImages, if_neg hfull, hx]
        refine ih _ ?_
        show (if c = cls then st.class_counts c + 1 else st.class_counts c) ≤ maxS
        by_cases hc : c = cls
        · rw [if_pos hc, hc]
          omega
        · rw [if_neg hc]
          exact h

theorem processImages_counts_match {α : Type} (cls : GClass) (gname : String)
    (maxS : Nat) (imgs : List (String × Option (List (List (Landmark α)))))
    (st : PState α)
    (h : ∀ c, st.class_counts c =
      (st.collected_data.filter (fun s => s.label == c)).length) :
    ∀ c, (processImages cls gname maxS imgs st).class_counts c =
      ((processImages cls gname maxS imgs st).collected_data.filter
        (fun s => s.label == c)).length := by
  induction imgs generalizing st with
  | nil => exact h
  | cons p rest ih =>
    obtain ⟨path, img⟩ := p
    by_cases hfull : maxS ≤ st.class_counts cls
    · simpa [processImages, hfull] using h
    · cases hx : extract_landmarks img with
      | none =>
        simp only [processImages, if_neg hfull, hx]
        exact ih st h
      | some hd =>
        simp only [processImages, if_neg hfull, hx]
        refine ih _ ?_
        intro c
        show (if c = cls then st.class_counts c + 1 else st.class_counts c) =
          ((st.collected_data ++ [Sample.mk cls hd gname path]).filter
            (fun s => s.label == c)).length
        rw [List.filter_append, List.length_append]
        by_cases hc : c = cls
        · rw [if_pos hc, h c]
          have hb : ((Sample.mk cls hd gname path).label == c) = true := by
            simp only [beq_iff_eq]
            exact hc.symm
          simp [List.filter_cons, hb]
        · rw [if_neg hc, h c]
          have hne : ¬ ((Sample.mk cls hd gname path).label == c) = true := by
            simp only [beq_iff_eq]
            exact fun hh => hc hh.symm
          simp [List.filter_cons, hne]

theorem process_dirs_counts_le {α : Type} (maxS : Nat) (dirs : List (GestureDir α))
    (st : PState α) (c : GClass) (h : st.class_counts c ≤ maxS) :
    (process_dirs maxS dirs st).class_counts c ≤ maxS := by
  induction dirs generalizing st with
  | nil => exact h
  | cons d rest ih =>
    by_cases hfull : maxS ≤ st.class_counts (GESTURE_MAPPING d.name)
    · simp only [process_dirs, if_pos hfull]
      exact ih st h
    · simp only [process_dirs, if_neg hfull]
      exact ih _ (processImages_counts_le _ _ _ _ _ _ h)

theorem process_dirs_counts_match {α : Type} (maxS : Nat)
    (dirs : List (GestureDir α)) (st : PState α)
    (h : ∀ c, st.class_counts c =
      (st.collected_data.filter (fun s => s.label == c)).length) :
    ∀ c, (process_dirs maxS dirs st).class_counts c =
      ((process_dirs maxS dirs st).collected_data.filter
        (fun s => s.label == c)).length := by
  induction dirs generalizing st with
  | nil => exact h
  | cons d rest ih =>
    by_cases hfull : maxS ≤ st.class_counts (GESTURE_MAPPING d.name)
    · simp only [process_dirs, if_pos hfull]
      exact ih st h
    · simp only [process_dirs, if_neg hfull]
      exact ih _ (processImages_counts_match _ _ _ _ _ h)

theorem length_eq_sum_class_filters {α : Type} (l : List (Sample α)) :
    l.length = (l.filter (fun s => s.label == GClass.pointing)).length +
      (l.filter (fun s => s.label == GClass.pinch)).length +
      (l.filter (fun s => s.label == GClass.open_palm)).length +
      (l.filter (fun s => s.label == GClass.idle)).length := by
  induction l with
  | nil => rfl
  | cons s rest ih =>
    obtain ⟨lab, r0, og, ip⟩ := s
    cases lab <;> simp [List.filter_cons, ih, beq_iff_eq] <;> omega

/-- Claim C10: starting from zero counters, every class counter stays at or
below `max_samples_per_class`, each counter equals the number of collected
samples carrying its label (each appended sample increments exactly the
counter of its own class), the total sample count is the sum of the four
counters, and the samples written to the output JSON therefore contain each
class at most `max_samples_per_class` times.  Instantiating `dirs` with any
prefix of the directory list gives the same bounds at every intermediate
state of the outer loop. -/
theorem class_counts_capped {α : Type} (dirs : List (GestureDir α)) (maxS : Nat)
    (prior : Option (List (Sample α))) (c : GClass) :
    (process_dirs maxS dirs (initialPState α)).class_counts c ≤ maxS ∧
    (process_dirs maxS dirs (initialPState α)).class_counts c =
      ((process_dirs maxS dirs (initialPState α)).collected_data.filter
        (fun s => s.label == c)).length ∧
    (process_dirs maxS dirs (initialPState α)).collected_data.length =
      (process_dirs maxS dirs (initialPState α)).class_counts GClass.pointing +
      (process_dirs maxS dirs (initialPState α)).class_counts GClass.pinch +
      (process_dirs maxS dirs (initialPState α)).class_counts GClass.open_palm +
      (process_dirs maxS dirs (initialPState α)).class_counts GClass.idle ∧
    process_haGRID_dataset (DataState.mk (some dirs) prior) maxS =
      DataState.mk (some dirs)
        (some (process_dirs maxS dirs (initialPState α)).collected_data) ∧
    ((process_dirs maxS dirs (initialPState α)).collected_data.filter
      (fun s => s.label == c)).length ≤ maxS := by
  have hmatch : ∀ c0, (process_dirs maxS dirs (initialPState α)).class_counts c0 =
      ((process_dirs maxS dirs (initialPState α)).collected_data.filter
        (fun s => s.label == c0)).length :=
    process_dirs_counts_match maxS dirs (initialPState α) (fun c0 => rfl)
  have hle : (process_dirs maxS dirs (initialPState α)).class_counts c ≤ maxS :=
    process_dirs_counts_le maxS dirs (initialPState α) c (Nat.zero_le maxS)
  refine ⟨hle, hmatch c, ?_, rfl, ?_⟩
  · rw [length_eq_sum_class_filters, ← hmatch GClass.pointing, ← hmatch GClass.pinch,
      ← hmatch GClass.open_palm, ← hmatch GClass.idle]
  · rw [← hmatch c]
    exact hle
